import Mathlib

/-!
Verification of the zipcodes lookup library (src/src/lib.rs).

The Rust library exposes `matching`, `is_real`, `filter_by`, `list_all`
and the private validator `clean_zipcode` over a lazily-loaded global
dataset `ZIPCODES : Vec<Zipcode>`.

Embedding choices:
  * A Rust `&str` is modelled as a `List Char` (its sequence of Unicode
    scalar values).  Rust operations that work on the UTF-8 byte level
    (`str::len`, byte slicing `&s[..n]`) are modelled through
    `Char.utf8Size`, which is exactly the number of bytes a scalar value
    occupies in UTF-8.
  * Rust byte slicing `&s[..n]` panics when `n` is not a character
    boundary; fallible-by-panic computations return an `Outcome` with an
    explicit `panic` constructor.
  * The global dataset `ZIPCODES` is produced at runtime by decompressing
    an embedded bzip2 blob; its concrete contents are data, not code, so
    every function that reads it takes the decoded list as an explicit
    first argument named `ZIPCODES`.
-/

namespace ZipcodesRs

/-- One record of the zipcode database (struct `Zipcode` in lib.rs).
Rust `String` fields are modelled as `List Char`. -/
structure Zipcode where
  acceptable_cities : List (List Char)
  active : Bool
  area_codes : List (List Char)
  city : List Char
  country : List Char
  lat : List Char
  long : List Char
  state : List Char
  timezone : List Char
  unacceptable_cities : List (List Char)
  world_region : List Char
  zip_code : List Char
  zip_code_type : List Char
  deriving DecidableEq, Repr

/-- The typed error surface (enum `Error` in lib.rs). -/
inductive Error where
  | InvalidFormat
  | InvalidCharacters
  deriving DecidableEq, Repr

/-- Result of running a Rust function that returns `Result<α, Error>` but can
also panic (abort the process): `panic` models a Rust panic, `err e` models
`Err(e)`, `ok a` models `Ok(a)`. -/
inductive Outcome (α : Type) where
  | panic
  | err (e : Error)
  | ok (a : α)
  deriving DecidableEq, Repr

/-- `const ZIPCODE_LENGTH: usize = 5`. -/
def ZIPCODE_LENGTH : Nat := 5

/-- Rust `char::is_whitespace`: the Unicode White_Space property, an explicit
finite list of code points (this full list is reproduced here). -/
def char_is_whitespace (c : Char) : Bool :=
  c == '\u0009' || c == '\u000A' || c == '\u000B' || c == '\u000C' ||
  c == '\u000D' || c == '\u0020' || c == '\u0085' || c == '\u00A0' ||
  c == '\u1680' || c == '\u2000' || c == '\u2001' || c == '\u2002' ||
  c == '\u2003' || c == '\u2004' || c == '\u2005' || c == '\u2006' ||
  c == '\u2007' || c == '\u2008' || c == '\u2009' || c == '\u200A' ||
  c == '\u2028' || c == '\u2029' || c == '\u202F' || c == '\u205F' ||
  c == '\u3000'

/-- Rust `char::is_numeric`: true for characters in the Unicode general
categories Nd, Nl and No.  On the ASCII range this coincides exactly with
`Char.isDigit`, and `Char.isDigit` is how we model it.  Rust additionally
returns true for some non-ASCII characters (e.g. non-ASCII decimal digits);
no concrete input used below contains such a character, and every
universally quantified theorem below is insensitive to the values of this
predicate outside the ASCII range (the predicate appears in them only
applied to the same characters on both sides). -/
def char_is_numeric (c : Char) : Bool :=
  c.isDigit

/-- Rust `str::trim`: remove leading and trailing characters satisfying
`char::is_whitespace`. -/
def strTrim (l : List Char) : List Char :=
  ((l.dropWhile char_is_whitespace).reverse.dropWhile char_is_whitespace).reverse

/-- UTF-8 byte length of a string, Rust `str::len`. -/
def utf8Len (l : List Char) : Nat :=
  (l.map Char.utf8Size).sum

/-- Rust byte slicing `&s[..n]`: the characters occupying the first `n`
bytes of the UTF-8 encoding, or `none` when `n` is not a character
boundary or exceeds the length (in Rust, a panic). -/
def takeBytes (l : List Char) (n : Nat) : Option (List Char) :=
  match n, l with
  | 0, _ => some []
  | _+1, [] => none
  | n+1, c :: cs =>
    if c.utf8Size ≤ n+1 then
      (takeBytes cs (n+1 - c.utf8Size)).map (fun p => c :: p)
    else
      none

/-- `fn clean_zipcode(zipcode: &str) -> Result<&str>` from lib.rs: trim the
input; if its byte length is below `ZIPCODE_LENGTH` return
`Err(InvalidFormat)`; slice the first `ZIPCODE_LENGTH` bytes (a panic when
byte 5 is not a character boundary); if the sliced characters are not all
numeric return `Err(InvalidCharacters)`; otherwise return the whole
trimmed input. -/
def clean_zipcode (zipcode : List Char) : Outcome (List Char) :=
  let zipcode := strTrim zipcode
  if utf8Len zipcode < ZIPCODE_LENGTH then
    .err .InvalidFormat
  else
    match takeBytes zipcode ZIPCODE_LENGTH with
    | none => .panic
    | some split_zipcode =>
      if !split_zipcode.all char_is_numeric then
        .err .InvalidCharacters
      else
        .ok zipcode

/-- `pub fn matching(zipcode: &str, zipcodes: Option<Vec<Zipcode>>) ->
Result<Vec<Zipcode>>` from lib.rs.  `ZIPCODES` is the decoded global
dataset (see the module docstring). -/
def matching (ZIPCODES : List Zipcode) (zipcode : List Char)
    (zipcodes : Option (List Zipcode)) : Outcome (List Zipcode) :=
  match clean_zipcode zipcode with
  | .panic => .panic
  | .err e => .err e
  | .ok zipcode =>
    let zipcodes := zipcodes.getD ZIPCODES
    .ok (zipcodes.filter (fun z => z.zip_code == zipcode))

/-- `pub fn is_real(zipcode: &str) -> Result<bool>` from lib.rs. -/
def is_real (ZIPCODES : List Zipcode) (zipcode : List Char) : Outcome Bool :=
  match clean_zipcode zipcode with
  | .panic => .panic
  | .err e => .err e
  | .ok zipcode =>
    match matching ZIPCODES zipcode none with
    | .panic => .panic
    | .err e => .err e
    | .ok matching_zipcodes => .ok (!matching_zipcodes.isEmpty)

/-- The per-record loop body of `filter_by`: try each filter in order and
return false at the first one that rejects `z` (short-circuit AND). -/
def allFilters : List (Zipcode → Bool) → Zipcode → Bool
  | [], _ => true
  | f :: fs, z => if !f z then false else allFilters fs z

/-- `pub fn filter_by<F>(filters: Vec<F>, zipcodes: Option<Vec<Zipcode>>) ->
Result<Vec<Zipcode>>` from lib.rs. -/
def filter_by (ZIPCODES : List Zipcode) (filters : List (Zipcode → Bool))
    (zipcodes : Option (List Zipcode)) : Outcome (List Zipcode) :=
  let zipcodes := zipcodes.getD ZIPCODES
  .ok (zipcodes.filter (fun z => allFilters filters z))

/-- `pub fn list_all() -> Vec<Zipcode>` from lib.rs: a clone of the global
dataset. -/
def list_all (ZIPCODES : List Zipcode) : List Zipcode :=
  ZIPCODES

/-- A sample record with code 06903 (a code the library's own tests use),
shaped like the rows of the embedded dataset. -/
def rec06903 : Zipcode :=
  { acceptable_cities := [], active := true, area_codes := ["203".data],
    city := "Stamford".data, country := "US".data, lat := "41.0887".data,
    long := "-73.5604".data, state := "CT".data,
    timezone := "America/New_York".data, unacceptable_cities := [],
    world_region := "NA".data, zip_code := "06903".data,
    zip_code_type := "STANDARD".data }

/-- A sample record with code 00000, used to probe lookups whose input
carries a plus-four suffix. -/
def rec00000 : Zipcode :=
  { acceptable_cities := [], active := true, area_codes := [],
    city := "Nowhere".data, country := "US".data, lat := "0.0".data,
    long := "0.0".data, state := "NA".data,
    timezone := "UTC".data, unacceptable_cities := [],
    world_region := "NA".data, zip_code := "00000".data,
    zip_code_type := "STANDARD".data }

/-! ### Helper lemmas about the embedded operations -/

/-- `strTrim` is right-trimming (`List.rdropWhile`) after left-trimming. -/
theorem strTrim_eq_rdropWhile (l : List Char) :
    strTrim l = (l.dropWhile char_is_whitespace).rdropWhile char_is_whitespace :=
  rfl

/-- The head of a trimmed string is not whitespace. -/
theorem strTrim_head_not (l : List Char) (c : Char)
    (h : (strTrim l).head? = some c) : char_is_whitespace c = false := by
  have hpre : strTrim l <+: l.dropWhile char_is_whitespace := by
    rw [strTrim_eq_rdropWhile]
    exact List.rdropWhile_prefix _ _
  cases hs : strTrim l with
  | nil => rw [hs] at h; exact absurd h (by simp)
  | cons a rest =>
    rw [hs] at h
    simp only [List.head?_cons, Option.some.injEq] at h
    subst h
    obtain ⟨t, hteq⟩ := hpre
    rw [hs] at hteq
    have hh : (l.dropWhile char_is_whitespace).head? = some a := by
      rw [← hteq]; simp
    have hmatch := List.head?_dropWhile_not char_is_whitespace l
    rw [hh] at hmatch
    exact hmatch

/-- A trimmed string has no leading whitespace left. -/
theorem dropWhile_strTrim (l : List Char) :
    (strTrim l).dropWhile char_is_whitespace = strTrim l := by
  cases ht : strTrim l with
  | nil => simp
  | cons c rest =>
    have hc : char_is_whitespace c = false :=
      strTrim_head_not l c (by rw [ht]; simp)
    rw [List.dropWhile_cons_of_neg (by simp [hc])]

/-- Trimming is idempotent. -/
theorem strTrim_idem (l : List Char) : strTrim (strTrim l) = strTrim l := by
  conv_lhs => rw [strTrim_eq_rdropWhile, dropWhile_strTrim, strTrim_eq_rdropWhile]
  exact List.rdropWhile_idempotent _ _

/-- Inversion for a successful validation: the returned value is the whole
trimmed input, the trimmed input holds at least `ZIPCODE_LENGTH` bytes, and
its first `ZIPCODE_LENGTH` bytes are characters that are all numeric. -/
theorem clean_zipcode_ok_inv {s v : List Char} (h : clean_zipcode s = .ok v) :
    v = strTrim s ∧ ¬ utf8Len (strTrim s) < ZIPCODE_LENGTH ∧
    ∃ p, takeBytes (strTrim s) ZIPCODE_LENGTH = some p ∧
      p.all char_is_numeric = true := by
  simp only [clean_zipcode] at h
  split at h
  · exact absurd h (by simp)
  · rename_i h5
    split at h
    · exact absurd h (by simp)
    · rename_i p hp
      by_cases hn : p.all char_is_numeric
      · rw [if_neg (by simp [hn])] at h
        have hv : v = strTrim s := by
          injection h with h
          exact h.symm
        exact ⟨hv, h5, p, hp, hn⟩
      · rw [if_pos (by simp [hn])] at h
        exact absurd h (by simp)

/-- Successful validation, forward direction. -/
theorem clean_zipcode_eq_ok {s p : List Char}
    (h5 : ¬ utf8Len (strTrim s) < ZIPCODE_LENGTH)
    (hb : takeBytes (strTrim s) ZIPCODE_LENGTH = some p)
    (hn : p.all char_is_numeric = true) :
    clean_zipcode s = .ok (strTrim s) := by
  simp only [clean_zipcode]
  rw [if_neg h5, hb]
  simp [hn]

/-- Validating an already-validated (hence already-trimmed) code succeeds
and returns it unchanged. -/
theorem clean_zipcode_idem {s v : List Char} (h : clean_zipcode s = .ok v) :
    clean_zipcode v = .ok v := by
  obtain ⟨rfl, h5, p, hb, hn⟩ := clean_zipcode_ok_inv h
  have ht : strTrim (strTrim s) = strTrim s := strTrim_idem s
  simp only [clean_zipcode, ht]
  rw [if_neg h5, hb]
  simp [hn]

/-- `matching` under a successful validation is a filter of its scope by
the validated code. -/
theorem matching_eq_filter {s v : List Char} (Z : List Zipcode)
    (ov : Option (List Zipcode)) (h : clean_zipcode s = .ok v) :
    matching Z s ov = .ok ((ov.getD Z).filter (fun z => z.zip_code == v)) := by
  simp only [matching, h]

/-- Each character of a list is at most its UTF-8 byte count. -/
theorem length_le_utf8Len (l : List Char) : l.length ≤ utf8Len l := by
  induction l with
  | nil => simp [utf8Len]
  | cons c cs ih =>
    simp only [utf8Len, List.map_cons, List.sum_cons, List.length_cons] at ih ⊢
    have := Char.utf8Size_pos c
    omega

/-- A decimal digit occupies one UTF-8 byte. -/
theorem utf8Size_of_isDigit {c : Char} (h : c.isDigit = true) :
    c.utf8Size = 1 := by
  simp only [Char.isDigit, Bool.and_eq_true, decide_eq_true_eq] at h
  have h127 : c.val ≤ 127 := UInt32.le_trans h.2 (by decide)
  simp [Char.utf8Size]
  intro hcon
  exact absurd h127 (by simpa using hcon)

/-- Byte slicing a prefix of one-byte characters succeeds and is `take`. -/
theorem takeBytes_of_one_byte_chars (n : Nat) (l : List Char)
    (h1 : ∀ c ∈ l.take n, c.utf8Size = 1) (h2 : n ≤ l.length) :
    takeBytes l n = some (l.take n) := by
  induction n generalizing l with
  | zero => simp [takeBytes]
  | succ n ih =>
    cases l with
    | nil => simp at h2
    | cons c cs =>
      have hc : c.utf8Size = 1 := h1 c (by simp)
      simp only [takeBytes, hc]
      rw [if_pos (by omega)]
      have hrec : takeBytes cs n = some (cs.take n) := by
        refine ih cs (fun d hd => h1 d ?_) (by simpa using h2)
        simp [List.take_cons]
        right
        exact hd
      simp [hrec]

/-- The per-record loop of `filter_by` is boolean conjunction over the
filter list. -/
theorem allFilters_eq_all (fs : List (Zipcode → Bool)) (z : Zipcode) :
    allFilters fs z = fs.all (fun f => f z) := by
  induction fs with
  | nil => rfl
  | cons f fs ih =>
    simp only [allFilters, List.all_cons, ih]
    cases f z <;> simp

/-! ### Claim theorems -/

/-- C10: for every input string on which validation succeeds,
`clean_zipcode` returns the entire trimmed input (including any separator
and suffix after the first 5 digits), and `matching` therefore compares
each record's `zip_code` field against the whole trimmed input string, not
against its 5-character prefix. -/
theorem C10_clean_full_trim (Z : List Zipcode) (ov : Option (List Zipcode))
    (s v : List Char) (h : clean_zipcode s = .ok v) :
    v = strTrim s ∧
    matching Z s ov =
      .ok ((ov.getD Z).filter (fun z => z.zip_code == strTrim s)) := by
  have hv := (clean_zipcode_ok_inv h).1
  refine ⟨hv, ?_⟩
  rw [matching_eq_filter Z ov h, hv]

/-- C10 witness: on the plus-four input 06903-1234 the validated value is
the whole ten-character string, and lookup against a store holding the
record for 06903 finds nothing. -/
theorem C10_clean_full_trim_witness :
    ("06903-1234".data : List Char) = strTrim ("06903-1234".data) ∧
    matching [rec06903] ("06903-1234".data) none =
      .ok (([rec06903]).filter
        (fun z => z.zip_code == strTrim ("06903-1234".data))) :=
  C10_clean_full_trim [rec06903] none ("06903-1234".data)
    ("06903-1234".data) (by decide)

/-- C1 counterexample: on input 00000-0000 (validation succeeds) with an
override scope holding a record whose code is 00000, the claim predicts
the record is returned, since its `zip_code` equals the first 5 characters
of the trimmed input; `matching` actually returns the empty list. -/
theorem C1_counterexample :
    clean_zipcode ("00000-0000".data) = .ok ("00000-0000".data) ∧
    matching [] ("00000-0000".data) (some [rec00000]) = .ok [] ∧
    ([rec00000]).filter
      (fun z => z.zip_code == (strTrim ("00000-0000".data)).take 5) =
      [rec00000] := by
  decide

/-- C1 (amended): for every search scope, when validation of the input
succeeds, `matching` returns exactly the records of the scope whose
`zip_code` field equals the whole trimmed input (not its 5-character
prefix), preserving the scope's order (the result is a sublist of the
scope), and returns the empty sequence rather than an error when no record
of the scope carries that string. -/
theorem C1_matching_exact (Z : List Zipcode) (ov : Option (List Zipcode))
    (s v : List Char) (h : clean_zipcode s = .ok v) :
    matching Z s ov =
      .ok ((ov.getD Z).filter (fun z => z.zip_code == strTrim s)) ∧
    ((ov.getD Z).filter (fun z => z.zip_code == strTrim s)).Sublist
      (ov.getD Z) ∧
    ((∀ z ∈ ov.getD Z, ¬ z.zip_code = strTrim s) →
      matching Z s ov = .ok []) := by
  have hv := (clean_zipcode_ok_inv h).1
  subst hv
  refine ⟨matching_eq_filter Z ov h, List.filter_sublist _, fun hall => ?_⟩
  rw [matching_eq_filter Z ov h]
  congr 1
  rw [List.filter_eq_nil_iff]
  intro z hz
  simpa using hall z hz

/-- C1 witness: a 5-digit lookup against the singleton scope returns the
matching record. -/
theorem C1_matching_exact_witness :
    matching [rec06903] ("06903".data) none =
      .ok (([rec06903]).filter
        (fun z => z.zip_code == strTrim ("06903".data))) :=
  (C1_matching_exact [rec06903] none ("06903".data) ("06903".data)
    (by decide)).1

/-- C2 counterexample: on input 00000-0000 the first 5 trimmed characters
are digits, but validation does not return exactly those 5 characters: it
returns the whole 10-character string. -/
theorem C2_counterexample :
    clean_zipcode ("00000-0000".data) ≠
      .ok ((strTrim ("00000-0000".data)).take 5) := by
  decide

/-- C2 (amended): for every input string whose trimmed form has at least 5
characters, the first 5 of which are decimal digits, validation succeeds —
but it returns the entire trimmed input, of which the canonical 5 digits
are only a prefix. -/
theorem C2_clean_succeeds (s : List Char)
    (h5 : 5 ≤ (strTrim s).length)
    (hd : ∀ c ∈ (strTrim s).take 5, c.isDigit = true) :
    clean_zipcode s = .ok (strTrim s) := by
  have hones : ∀ c ∈ (strTrim s).take 5, c.utf8Size = 1 :=
    fun c hc => utf8Size_of_isDigit (hd c hc)
  have hb : takeBytes (strTrim s) 5 = some ((strTrim s).take 5) :=
    takeBytes_of_one_byte_chars 5 (strTrim s) hones h5
  have hlen : ¬ utf8Len (strTrim s) < 5 := by
    have := length_le_utf8Len (strTrim s)
    omega
  have hn : ((strTrim s).take 5).all char_is_numeric = true := by
    rw [List.all_eq_true]
    intro c hc
    exact hd c hc
  exact clean_zipcode_eq_ok hlen hb hn

/-- C2 witness: a surrounded plus-four input validates to its trimmed
form. -/
theorem C2_clean_succeeds_witness :
    clean_zipcode (" 06903-1234 ".data) = .ok (strTrim (" 06903-1234 ".data)) :=
  C2_clean_succeeds (" 06903-1234 ".data) (by decide) (by decide)

/-- C3 counterexample: the input consisting of two letters e-acute and a
dot has 3 characters after trimming — fewer than 5 — yet validation does
not fail with InvalidFormat: the trimmed input occupies 5 UTF-8 bytes, so
the length guard passes and validation fails with InvalidCharacters
instead. -/
theorem C3_counterexample :
    ¬ (clean_zipcode ['é', 'é', '.'] = .err .InvalidFormat ↔
       (strTrim ['é', 'é', '.']).length < 5) := by
  decide

/-- C3 (amended): for every input string, validation fails with the
InvalidFormat error if and only if the input, after trimming surrounding
whitespace, occupies fewer than 5 UTF-8 bytes (for ASCII inputs: has fewer
than 5 characters). -/
theorem C3_invalid_format_iff (s : List Char) :
    clean_zipcode s = .err .InvalidFormat ↔
      utf8Len (strTrim s) < ZIPCODE_LENGTH := by
  constructor
  · intro h
    by_contra h5
    simp only [clean_zipcode] at h
    rw [if_neg h5] at h
    split at h
    · simp at h
    · split at h
      · simp at h
      · simp at h
  · intro h5
    simp only [clean_zipcode]
    rw [if_pos h5]

/-- C3 witness: a 4-character input fails with InvalidFormat. -/
theorem C3_invalid_format_iff_witness :
    clean_zipcode ("0000".data) = .err .InvalidFormat :=
  (C3_invalid_format_iff ("0000".data)).mpr (by decide)

/-- C4 counterexample: five e-acute characters survive trimming with 5
characters, the first 5 of which are all non-digits, yet validation does
not fail with InvalidCharacters: the trimmed input occupies 10 UTF-8 bytes
and byte 5 falls in the middle of the third character, so the byte slice
panics before the character check runs. -/
theorem C4_counterexample :
    5 ≤ (strTrim (List.replicate 5 'é')).length ∧
    (¬ ∀ c ∈ (strTrim (List.replicate 5 'é')).take 5, c.isDigit = true) ∧
    clean_zipcode (List.replicate 5 'é') ≠ .err .InvalidCharacters ∧
    clean_zipcode (List.replicate 5 'é') = .panic := by
  decide

/-- C4 (amended): for every input string whose trimmed form occupies at
least 5 UTF-8 bytes, whose byte 5 falls on a character boundary, and whose
first-5-byte characters are not all numeric, validation fails with the
InvalidCharacters error.  (When byte 5 is not a character boundary the
byte slice panics instead.) -/
theorem C4_invalid_characters (s p : List Char)
    (h5 : ¬ utf8Len (strTrim s) < ZIPCODE_LENGTH)
    (hb : takeBytes (strTrim s) ZIPCODE_LENGTH = some p)
    (hn : p.all char_is_numeric = false) :
    clean_zipcode s = .err .InvalidCharacters := by
  simp only [clean_zipcode]
  rw [if_neg h5, hb]
  simp [hn]

/-- C4 witness: an input with a letter among its first 5 characters fails
with InvalidCharacters. -/
theorem C4_invalid_characters_witness :
    clean_zipcode ("1234x6789".data) = .err .InvalidCharacters :=
  C4_invalid_characters ("1234x6789".data) ("1234x".data)
    (by decide) (by decide) (by decide)

/-- C5: the code, evaluated at the failing caller input of two katakana
characters (6 UTF-8 bytes, so the length guard passes but byte 5 is not a
character boundary): validation panics — aborts the process — instead of
returning Ok or one of the two typed errors, and the panic propagates
through matching and is_real.  This contradicts the claim that the only
fatal path is dataset decompression or parsing. -/
theorem C5_panic_on_caller_input :
    clean_zipcode ("ホゲ".data) = .panic ∧
    matching [] ("ホゲ".data) none = .panic ∧
    is_real [] ("ホゲ".data) = .panic := by
  decide

/-- C6: is_real agrees with matching on the singleton scope in every case:
when matching succeeds, is_real returns exactly whether the match list is
non-empty, and when validation fails (or panics), is_real fails with the
very same error (or panics).  The inner re-validation inside is_real is
harmless because validating an already-validated code returns it
unchanged. -/
theorem C6_is_real_spec (Z : List Zipcode) (s : List Char) :
    is_real Z s =
      match matching Z s none with
      | .panic => .panic
      | .err e => .err e
      | .ok ms => .ok (!ms.isEmpty) := by
  cases hc : clean_zipcode s with
  | panic => simp [is_real, matching, hc]
  | err e => simp [is_real, matching, hc]
  | ok v =>
    have hidem := clean_zipcode_idem hc
    have h1 : matching Z s none =
        .ok (Z.filter (fun z => z.zip_code == v)) := by
      simpa using matching_eq_filter Z none hc
    have h2 : matching Z v none =
        .ok (Z.filter (fun z => z.zip_code == v)) := by
      simpa using matching_eq_filter Z none hidem
    simp [is_real, hc, h2, h1]

/-- C6 witness: a real code in the scope yields Ok true. -/
theorem C6_is_real_spec_witness :
    is_real [rec06903] ("06903".data) = .ok true := by
  have h := C6_is_real_spec [rec06903] ("06903".data)
  rw [h]
  decide

/-- C7 counterexample: the two input strings 06903 and (space)06903 are
different strings, both pass validation, yet searching for the first
inside the records matched by the second is not empty — the two inputs
trim to the same canonical code. -/
theorem C7_counterexample :
    (" 06903".data : List Char) ≠ "06903".data ∧
    clean_zipcode (" 06903".data) = .ok ("06903".data) ∧
    clean_zipcode ("06903".data) = .ok ("06903".data) ∧
    matching [rec06903] (" 06903".data) none = .ok [rec06903] ∧
    matching [rec06903] ("06903".data) (some [rec06903]) =
      .ok [rec06903] := by
  decide

/-- C7 (amended): supplying an override sequence restricts the search
strictly to that sequence: whenever two inputs validate to distinct
canonical values, searching for one inside the records matched by the
other returns the empty sequence; and every record returned by matching
or filter_by under an override scope is an element of that override
sequence. -/
theorem C7_override_restricts :
    (∀ (Z ms : List Zipcode) (c other vc vo : List Char),
      clean_zipcode c = .ok vc → clean_zipcode other = .ok vo → vc ≠ vo →
      matching Z other none = .ok ms →
      matching Z c (some ms) = .ok []) ∧
    (∀ (Z ov res : List Zipcode) (s : List Char),
      matching Z s (some ov) = .ok res → ∀ z ∈ res, z ∈ ov) ∧
    (∀ (Z ov res : List Zipcode) (fs : List (Zipcode → Bool)),
      filter_by Z fs (some ov) = .ok res → ∀ z ∈ res, z ∈ ov) := by
  refine ⟨?_, ?_, ?_⟩
  · intro Z ms c other vc vo hc ho hne hm
    rw [matching_eq_filter Z none ho] at hm
    injection hm with hm
    have h1 := matching_eq_filter Z (some ms) hc
    rw [h1]
    simp only [Option.getD_some]
    congr 1
    rw [List.filter_eq_nil_iff]
    intro z hz
    rw [← hm] at hz
    simp only [Option.getD_none, List.mem_filter, beq_iff_eq] at hz
    simp only [beq_iff_eq]
    exact fun hcon => hne (hcon ▸ hz.2)
  · intro Z ov res s hm z hz
    cases hc : clean_zipcode s with
    | panic => simp [matching, hc] at hm
    | err e => simp [matching, hc] at hm
    | ok v =>
      rw [matching_eq_filter Z (some ov) hc] at hm
      injection hm with hm
      rw [← hm] at hz
      simp only [Option.getD_some, List.mem_filter] at hz
      exact hz.1
  · intro Z ov res fs hm z hz
    simp only [filter_by] at hm
    injection hm with hm
    rw [← hm] at hz
    simp only [Option.getD_some, List.mem_filter] at hz
    exact hz.1

/-- C7 witness: a code absent from the override scope built from another
code's matches is not found. -/
theorem C7_override_restricts_witness :
    matching [rec06903] ("00000".data) (some [rec06903]) = .ok [] :=
  C7_override_restricts.1 [rec06903] [rec06903] ("00000".data)
    ("06903".data) ("00000".data) ("06903".data)
    (by decide) (by decide) (by decide) (by decide)

/-- C8: filter_by always succeeds and returns exactly the records of its
scope (the override sequence if provided, otherwise the singleton) for
which every predicate evaluates true, in the scope's order (the result is
a sublist of the scope); an empty predicate list yields the full scope,
and filter_by [] None returns the same sequence as list_all. -/
theorem C8_filter_by_spec (Z : List Zipcode) (fs : List (Zipcode → Bool))
    (ov : Option (List Zipcode)) :
    filter_by Z fs ov =
      .ok ((ov.getD Z).filter (fun z => fs.all (fun f => f z))) ∧
    ((ov.getD Z).filter (fun z => fs.all (fun f => f z))).Sublist
      (ov.getD Z) ∧
    filter_by Z [] ov = .ok (ov.getD Z) ∧
    filter_by Z [] none = .ok (list_all Z) := by
  refine ⟨?_, List.filter_sublist _, ?_, ?_⟩
  · simp only [filter_by, allFilters_eq_all]
  · simp [filter_by, allFilters]
  · simp [filter_by, allFilters, list_all]

/-- C8 witness: filtering two records by the active flag keeps both, and
the empty filter list returns the whole store. -/
theorem C8_filter_by_spec_witness :
    filter_by [rec06903, rec00000] [] none = .ok (list_all [rec06903, rec00000]) :=
  (C8_filter_by_spec [rec06903, rec00000] [] none).2.2.2

end ZipcodesRs
